import Mathlib

/-!
Verification of the withvibes/opencode-withvibes memory plugin
(`src/unnamed/part_004`): message chunking, routing between the direct
conversational-append path and the segmented fact-ingestion path, the
ordered write queue, the identity resolver, the `remember` tool
validation, and the bundled-skill registry and delivery protocol.

Text is modelled as `List Char` (one element per UTF-16 code unit of the
JS string). External collaborators (the Zep store client, `client.session`,
`crypto.createHash('md5')`, `path.dirname`, the filesystem) are modelled as
explicit function parameters, never as hidden state.
-/

namespace Withvibes

/-- The Zep direct conversational-append limit the chat hook enforces
(`textContent.length <= 2500` in the source). -/
def DIRECT_LIMIT : Nat := 2500

/-- The segment size passed to `chunkMessage` by the chat hook
(`chunkMessage(textContent, 4500)` in the source). -/
def SEGMENT_LIMIT : Nat := 4500

/-- Embedding of `chunkMessage` (part_004 lines 105-111):
`for (let i = 0; i < text.length; i += maxSize) chunks.push(text.substring(i, i + maxSize))`.
Each loop iteration takes the next `maxSize` code units of the remaining text.
The source is only ever called with `maxSize = 4500`; the `maxSize = 0` guard
makes the recursion terminate in Lean (the JS loop would not advance there). -/
def chunkMessage (text : List Char) (maxSize : Nat) : List (List Char) :=
  if maxSize = 0 ∨ text = [] then []
  else text.take maxSize :: chunkMessage (text.drop maxSize) maxSize
termination_by text.length
decreasing_by
  rename_i h
  push_neg at h
  simp only [List.length_drop]
  have := List.length_pos.mpr h.2
  omega

theorem chunkMessage_nil (maxSize : Nat) : chunkMessage [] maxSize = [] := by
  rw [chunkMessage]; simp

theorem chunkMessage_cons (text : List Char) (maxSize : Nat)
    (hm : maxSize ≠ 0) (ht : text ≠ []) :
    chunkMessage text maxSize
      = text.take maxSize :: chunkMessage (text.drop maxSize) maxSize := by
  rw [chunkMessage]
  simp [hm, ht]

theorem chunkMessage_join (maxSize : Nat) (hm : maxSize ≠ 0) :
    ∀ text : List Char, (chunkMessage text maxSize).flatten = text := by
  intro text
  generalize hlen : text.length = n
  induction n using Nat.strong_induction_on generalizing text with
  | _ n ih =>
    rcases eq_or_ne text [] with rfl | hne
    · simp [chunkMessage_nil]
    · rw [chunkMessage_cons text maxSize hm hne]
      simp only [List.flatten_cons]
      have hlt : (text.drop maxSize).length < n := by
        subst hlen
        simp only [List.length_drop]
        have := List.length_pos.mpr hne
        omega
      rw [ih _ hlt _ rfl]
      exact List.take_append_drop maxSize text

theorem chunkMessage_mem (maxSize : Nat) (hm : maxSize ≠ 0) :
    ∀ (text : List Char), ∀ c ∈ chunkMessage text maxSize,
      c ≠ [] ∧ c.length ≤ maxSize := by
  intro text
  generalize hlen : text.length = n
  induction n using Nat.strong_induction_on generalizing text with
  | _ n ih =>
    rcases eq_or_ne text [] with rfl | hne
    · simp [chunkMessage_nil]
    · rw [chunkMessage_cons text maxSize hm hne]
      intro c hc
      rcases List.mem_cons.mp hc with rfl | hc
      · constructor
        · have := List.length_pos.mpr hne
          have hpos : 0 < maxSize := Nat.pos_of_ne_zero hm
          intro hnil
          have : (text.take maxSize).length = 0 := by rw [hnil]; rfl
          rw [List.length_take] at this
          omega
        · rw [List.length_take]; omega
      · have hlt : (text.drop maxSize).length < n := by
          subst hlen
          simp only [List.length_drop]
          have := List.length_pos.mpr hne
          omega
        exact ih _ hlt _ rfl c hc

theorem chunkMessage_dropLast (maxSize : Nat) (hm : maxSize ≠ 0) :
    ∀ (text : List Char), ∀ c ∈ (chunkMessage text maxSize).dropLast,
      c.length = maxSize := by
  intro text
  generalize hlen : text.length = n
  induction n using Nat.strong_induction_on generalizing text with
  | _ n ih =>
    rcases eq_or_ne text [] with rfl | hne
    · simp [chunkMessage_nil]
    · rw [chunkMessage_cons text maxSize hm hne]
      rcases eq_or_ne (text.drop maxSize) [] with hdrop | hdrop
      · rw [hdrop, chunkMessage_nil]
        simp
      · have hrest : chunkMessage (text.drop maxSize) maxSize ≠ [] := by
          rw [chunkMessage_cons _ maxSize hm hdrop]
          simp
        intro c hc
        rw [List.dropLast_cons_of_ne_nil hrest] at hc
        rcases List.mem_cons.mp hc with rfl | hc
        · rw [List.length_take]
          have : maxSize ≤ text.length := by
            by_contra hlt
            push_neg at hlt
            exact hdrop (List.drop_eq_nil_of_le (Nat.le_of_lt hlt))
          omega
        · have hlt : (text.drop maxSize).length < n := by
            subst hlen
            simp only [List.length_drop]
            have := List.length_pos.mpr hne
            omega
          exact ih _ hlt _ rfl c hc

/-- C1: For every text input T, splitting T with `chunkMessage` at segment
size 4500 yields segments whose in-order concatenation is exactly T, every
segment is nonempty of length at most 4500, and every segment except
possibly the last has length exactly 4500. -/
theorem C1_chunking_roundtrip (text : List Char) :
    (chunkMessage text 4500).flatten = text
    ∧ (∀ c ∈ chunkMessage text 4500, c ≠ [] ∧ c.length ≤ 4500)
    ∧ (∀ c ∈ (chunkMessage text 4500).dropLast, c.length = 4500) :=
  ⟨chunkMessage_join 4500 (by omega) text,
   chunkMessage_mem 4500 (by omega) text,
   chunkMessage_dropLast 4500 (by omega) text⟩

/-- Closed instance of C1 at the concrete input "hello". -/
theorem C1_chunking_roundtrip_witness :
    (chunkMessage "hello".toList 4500).flatten = "hello".toList
    ∧ (∀ c ∈ chunkMessage "hello".toList 4500, c ≠ [] ∧ c.length ≤ 4500)
    ∧ (∀ c ∈ (chunkMessage "hello".toList 4500).dropLast, c.length = 4500) :=
  C1_chunking_roundtrip "hello".toList

/-- A call to the external Zep store client, as issued by the plugin:
`zep.thread.addMessages(threadId, {messages: [{role, content}]})` or
`zep.graph.add({userId, type: 'text', data})`. -/
inductive StoreCall where
  | addMessages (threadId : String) (role : String) (content : List Char)
  | graphAdd (userId : String) (data : List Char)
deriving DecidableEq

/-- Role mapping of the chat hook:
`message.role === 'user' ? 'user' : 'assistant'`. -/
def zepRole (messageRole : String) : String :=
  if messageRole = "user" then "user" else "assistant"

/-- The store calls issued by the queued storage task of the `chat.message`
hook (part_004 lines 342-373) for an extracted `textContent`: nothing when
the text is empty (`if (!textContent) return`), one direct
`thread.addMessages` call when `textContent.length <= 2500`, otherwise one
`graph.add` call per 4500-unit chunk, in chunk order. -/
def routeMessage (threadId userId messageRole : String) (textContent : List Char) :
    List StoreCall :=
  if textContent = [] then []
  else if textContent.length ≤ DIRECT_LIMIT then
    [StoreCall.addMessages threadId (zepRole messageRole) textContent]
  else (chunkMessage textContent SEGMENT_LIMIT).map (StoreCall.graphAdd userId)

theorem replicate_char_ne_nil (n : Nat) (hn : n ≠ 0) (a : Char) :
    List.replicate n a ≠ [] := by
  intro h
  have hl := congrArg List.length h
  rw [List.length_replicate, List.length_nil] at hl
  exact hn hl

theorem chunk_replicate_6000 :
    chunkMessage (List.replicate 6000 'a') 4500
      = [List.replicate 4500 'a', List.replicate 1500 'a'] := by
  rw [chunkMessage_cons _ _ (by omega) (replicate_char_ne_nil 6000 (by omega) 'a'),
    List.take_replicate, List.drop_replicate]
  norm_num
  rw [chunkMessage_cons _ _ (by omega) (replicate_char_ne_nil 1500 (by omega) 'a'),
    List.take_replicate, List.drop_replicate]
  norm_num
  exact chunkMessage_nil 4500

/-- C3 as stated is false on the code: a message whose extracted text is
empty has length at most 2500, yet the hook performs zero store calls
rather than exactly one direct write. -/
theorem C3_counterexample :
    ([] : List Char).length ≤ DIRECT_LIMIT
    ∧ routeMessage "t" "u" "user" [] = [] := by
  constructor
  · decide
  · rfl

/-- C3 (amended: the text must be nonempty; empty extracted text produces no
store call at all): nonempty text of length at most 2500 yields exactly one
direct `thread.addMessages` write with no segmentation; text longer than
2500 is split at 4500 and written via `graph.add`; "hello" yields exactly
one direct write, and a 6000-character message yields exactly the two
segments of lengths 4500 and 1500, in that order. -/
theorem C3_routing (tid uid role : String) :
    (∀ text : List Char, text ≠ [] → text.length ≤ 2500 →
        routeMessage tid uid role text
          = [StoreCall.addMessages tid (zepRole role) text])
    ∧ (∀ text : List Char, 2500 < text.length →
        routeMessage tid uid role text
          = (chunkMessage text 4500).map (StoreCall.graphAdd uid))
    ∧ routeMessage tid uid "user" "hello".toList
        = [StoreCall.addMessages tid "user" "hello".toList]
    ∧ routeMessage tid uid "user" (List.replicate 6000 'a')
        = [StoreCall.graphAdd uid (List.replicate 4500 'a'),
           StoreCall.graphAdd uid (List.replicate 1500 'a')] := by
  refine ⟨?_, ?_, ?_, ?_⟩
  · intro text hne hle
    simp [routeMessage, hne, DIRECT_LIMIT, hle]
  · intro text hgt
    have hne : text ≠ [] := by
      intro h
      rw [h] at hgt
      simp at hgt
    simp [routeMessage, hne, DIRECT_LIMIT, SEGMENT_LIMIT, Nat.not_le.mpr hgt]
  · simp [routeMessage, DIRECT_LIMIT, zepRole]
  · have hne : List.replicate 6000 'a' ≠ ([] : List Char) :=
      replicate_char_ne_nil 6000 (by omega) 'a'
    simp only [routeMessage, if_neg hne, List.length_replicate, DIRECT_LIMIT,
      SEGMENT_LIMIT]
    norm_num
    rw [chunk_replicate_6000]
    rfl

/-- Closed instance of C3: the nonempty short message "hi" is routed as a
single direct write. -/
theorem C3_routing_witness :
    routeMessage "t" "u" "user" "hi".toList
      = [StoreCall.addMessages "t" (zepRole "user") "hi".toList] :=
  (C3_routing "t" "u" "user").1 "hi".toList (by decide) (by decide)

/-- The whitespace class of JS `String.prototype.trim` (ECMAScript
WhiteSpace and LineTerminator code points). -/
def isJsWhitespace (c : Char) : Bool :=
  c = '\t' || c = '\n' || c = '\u000b' || c = '\u000c' || c = '\r' || c = ' ' ||
  c = ' ' || c = ' ' || (' ' ≤ c && c ≤ ' ') ||
  c = ' ' || c = ' ' || c = ' ' || c = ' ' ||
  c = '　' || c = '﻿'

/-- Embedding of JS `String.prototype.trim`: strip leading and trailing
whitespace. -/
def trimList (s : List Char) : List Char :=
  ((s.dropWhile isJsWhitespace).reverse.dropWhile isJsWhitespace).reverse

/-- Embedding of the `remember` tool's `execute` (part_004 lines 207-237):
the result string together with the store calls attempted. The `!args.fact`
truthiness check rejects exactly the empty string (the `typeof` check cannot
fail for a string argument); `store` models `zep.thread.addMessages`, whose
failure is formatted into the "Failed to store memory" string. -/
def remember (threadId : String) (store : StoreCall → Except String Unit)
    (fact : List Char) : String × List StoreCall :=
  if fact = [] then ("Error: Fact is required and must be a string", [])
  else if (trimList fact).length = 0 then ("Error: Fact cannot be empty", [])
  else if 2500 < (trimList fact).length then
    ("Error: Fact is too long (" ++ toString (trimList fact).length
      ++ " characters, max 2500)", [])
  else
    match store (StoreCall.addMessages threadId "user"
        ("[MEMORY] ".toList ++ trimList fact)) with
    | Except.ok _ =>
        ("Remembered: " ++ String.mk (trimList fact),
         [StoreCall.addMessages threadId "user"
            ("[MEMORY] ".toList ++ trimList fact)])
    | Except.error e =>
        ("Failed to store memory: " ++ e
            ++ ". Check ZEP_API_KEY and network connection.",
         [StoreCall.addMessages threadId "user"
            ("[MEMORY] ".toList ++ trimList fact)])

theorem dropWhile_replicate_a (n : Nat) :
    (List.replicate n 'a').dropWhile isJsWhitespace = List.replicate n 'a' := by
  have ha : isJsWhitespace 'a' = false := by decide
  cases n with
  | zero => rfl
  | succ m => simp [List.replicate_succ, List.dropWhile_cons, ha]

theorem trimList_replicate_a (n : Nat) :
    trimList (List.replicate n 'a') = List.replicate n 'a' := by
  unfold trimList
  rw [dropWhile_replicate_a, List.reverse_replicate, dropWhile_replicate_a,
    List.reverse_replicate]

theorem dropWhile_spaces_append (n : Nat) (l : List Char) :
    (List.replicate n ' ' ++ l).dropWhile isJsWhitespace
      = l.dropWhile isJsWhitespace := by
  have hs : isJsWhitespace ' ' = true := by decide
  induction n with
  | zero => simp
  | succ m ih => simp [List.replicate_succ, List.dropWhile_cons, hs, ih]

theorem trim_mixed :
    trimList (List.replicate 2400 'a' ++ List.replicate 101 ' ')
      = List.replicate 2400 'a' := by
  have ha : isJsWhitespace 'a' = false := by decide
  have hfront :
      (List.replicate 2400 'a' ++ List.replicate 101 ' ').dropWhile isJsWhitespace
        = List.replicate 2400 'a' ++ List.replicate 101 ' ' := by
    have h2400 : (2400 : Nat) = 2399 + 1 := by norm_num
    rw [h2400, List.replicate_succ, List.cons_append, List.dropWhile_cons, ha]
    rw [if_neg (by decide)]
  unfold trimList
  rw [hfront, List.reverse_append, List.reverse_replicate, List.reverse_replicate,
    dropWhile_spaces_append, dropWhile_replicate_a, List.reverse_replicate]

theorem remember_accepts (tid : String) (store : StoreCall → Except String Unit)
    (fact : List Char) (hne : fact ≠ []) (hz : (trimList fact).length ≠ 0)
    (hlen : ¬ 2500 < (trimList fact).length) :
    (remember tid store fact).2
      = [StoreCall.addMessages tid "user" ("[MEMORY] ".toList ++ trimList fact)] := by
  unfold remember
  rw [if_neg hne, if_neg hz, if_neg hlen]
  cases store (StoreCall.addMessages tid "user" ("[MEMORY] ".toList ++ trimList fact)) with
  | ok _ => rfl
  | error _ => rfl

/-- C5 as stated is false on the code: this input has length 2501 > 2500
(MAX), yet `remember` accepts it — its trimmed length is only 2400 — and
attempts a store call instead of returning a validation error. -/
theorem C5_counterexample :
    2500 < (List.replicate 2400 'a' ++ List.replicate 101 ' ').length
    ∧ (remember "t" (fun _ => Except.ok ())
        (List.replicate 2400 'a' ++ List.replicate 101 ' ')).2 ≠ [] := by
  have hne : List.replicate 2400 'a' ++ List.replicate 101 ' ' ≠ ([] : List Char) := by
    intro h
    have hl := congrArg List.length h
    rw [List.length_append, List.length_replicate, List.length_replicate,
      List.length_nil] at hl
    omega
  constructor
  · rw [List.length_append, List.length_replicate, List.length_replicate]
    omega
  · rw [remember_accepts "t" (fun _ => Except.ok ()) _ hne
      (by rw [trim_mixed, List.length_replicate]; omega)
      (by rw [trim_mixed, List.length_replicate]; omega)]
    intro h
    exact List.cons_ne_nil _ _ h

/-- C5 (amended: the length bound is checked on the *trimmed* fact and the
error cites the trimmed length, not the raw input length): `remember` on the
empty string and on a whitespace-only string returns a validation error with
zero store calls, and whenever the trimmed fact exceeds 2500 characters it
returns a validation error citing the trimmed length, again with zero store
calls attempted. -/
theorem C5_remember_validation (tid : String)
    (store : StoreCall → Except String Unit) :
    remember tid store "".toList = ("Error: Fact is required and must be a string", [])
    ∧ remember tid store " ".toList = ("Error: Fact cannot be empty", [])
    ∧ (∀ fact : List Char, 2500 < (trimList fact).length →
        remember tid store fact
          = ("Error: Fact is too long (" ++ toString (trimList fact).length
              ++ " characters, max 2500)", [])) := by
  refine ⟨rfl, ?_, ?_⟩
  · unfold remember
    have h1 : (" ".toList : List Char) ≠ [] := by decide
    have h2 : (trimList " ".toList).length = 0 := by decide
    rw [if_neg h1, if_pos h2]
  · intro fact h
    have hne : fact ≠ [] := by
      intro hf
      rw [hf] at h
      simp [trimList] at h
    have hz : ¬ (trimList fact).length = 0 := by omega
    unfold remember
    rw [if_neg hne, if_neg hz, if_pos h]

/-- Closed instance of C5: a 2501-character all-letter fact (trimmed length
2501) is rejected with the too-long validation error and no store call. -/
theorem C5_remember_validation_witness :
    remember "t" (fun _ => Except.ok ()) (List.replicate 2501 'a')
      = ("Error: Fact is too long (" ++ toString (2501 : Nat)
          ++ " characters, max 2500)", []) := by
  have h := (C5_remember_validation "t" (fun _ => Except.ok ())).2.2
    (List.replicate 2501 'a')
    (by rw [trimList_replicate_a, List.length_replicate]; omega)
  rw [trimList_replicate_a, List.length_replicate] at h
  exact h

/-- C10: the 2492-character fact passes `remember`'s validation (its trimmed
length 2492 is at most 2500 and greater than 2491), yet the content actually
sent to the store — the 9-character prefix `"[MEMORY] "` concatenated with
the trimmed fact — has length 2501, exceeding the 2500-character direct
conversational-append limit `DIRECT_LIMIT` that the `chat.message` ingestion
hook enforces. -/
theorem C10_memory_prefix_overflow :
    (trimList (List.replicate 2492 'a')).length ≤ 2500
    ∧ 2491 < (trimList (List.replicate 2492 'a')).length
    ∧ (remember "t" (fun _ => Except.ok ()) (List.replicate 2492 'a')).2
        = [StoreCall.addMessages "t" "user"
            ("[MEMORY] ".toList ++ trimList (List.replicate 2492 'a'))]
    ∧ DIRECT_LIMIT
        < ("[MEMORY] ".toList ++ trimList (List.replicate 2492 'a')).length := by
  have ht := trimList_replicate_a 2492
  have h9 : ("[MEMORY] ".toList).length = 9 := by decide
  refine ⟨?_, ?_, ?_, ?_⟩
  · rw [ht, List.length_replicate]
    omega
  · rw [ht, List.length_replicate]
    omega
  · exact remember_accepts "t" (fun _ => Except.ok ()) _
      (replicate_char_ne_nil 2492 (by omega) 'a')
      (by rw [ht, List.length_replicate]; omega)
      (by rw [ht, List.length_replicate]; omega)
  · rw [ht, List.length_append, h9, List.length_replicate]
    unfold DIRECT_LIMIT
    omega

/-- Embedding of `generateThreadId` (part_004 lines 66-79). The read of
`process.env.ZEP_THREAD_ID` is passed as the `envThreadId` parameter;
`md5hex` models `crypto.createHash('md5').update(d).digest('hex')` (Node
stdlib, external to this repository), a fixed deterministic function
producing a 32-hex-character digest, of which `substring(0, 8)` is kept. -/
def generateThreadId (envThreadId : Option String) (md5hex : String → List Char)
    (dir : Option String) (user : String) : String :=
  match envThreadId with
  | some t => t
  | none =>
    match dir with
    | none => "thread-" ++ user
    | some d => "thread-" ++ user ++ "-" ++ String.mk ((md5hex d).take 8)

/-- C4: `generateThreadId` is a pure deterministic function of its inputs;
an explicit `ZEP_THREAD_ID` override is returned verbatim with highest
precedence; with no directory the id is scoped to the user alone; otherwise
the id combines the user with the fixed-width 8-hex-character prefix of the
md5 digest of the directory path. -/
theorem C4_generateThreadId_spec (md5hex : String → List Char)
    (hmd5 : ∀ s, (md5hex s).length = 32) (user : String) :
    (∀ env dir, generateThreadId env md5hex dir user
        = generateThreadId env md5hex dir user)
    ∧ (∀ t dir, generateThreadId (some t) md5hex dir user = t)
    ∧ generateThreadId none md5hex none user = "thread-" ++ user
    ∧ (∀ d, generateThreadId none md5hex (some d) user
          = "thread-" ++ user ++ "-" ++ String.mk ((md5hex d).take 8)
        ∧ (String.mk ((md5hex d).take 8)).length = 8) := by
  refine ⟨fun _ _ => rfl, fun _ _ => rfl, rfl, fun d => ⟨rfl, ?_⟩⟩
  show ((md5hex d).take 8).length = 8
  rw [List.length_take, hmd5 d]
  decide

/-- Closed instance of C4: a 32-character digest yields the id built from
the user and the digest's first 8 characters. -/
theorem C4_generateThreadId_witness :
    generateThreadId none (fun _ => List.replicate 32 '0') (some "/proj") "alice"
      = "thread-alice-00000000" := by
  rw [((C4_generateThreadId_spec (fun _ => List.replicate 32 '0')
      (fun _ => List.length_replicate 32 '0') "alice").2.2.2 "/proj").1]
  rfl

/-- Modelled from the spec: the Ordered Write Queue state. The queue object
itself is `new PQueue({ concurrency: 1 })` from the external `p-queue` npm
package, not code of this repository; the spec describes it as a
single-worker serialization point with at most one in-flight job and FIFO
waiting. `executed` records started jobs in start order. -/
structure QueueState (α : Type) where
  waiting : List α
  inFlight : Option α
  executed : List α

/-- An observable event at the queue: the hook submitting a write job
(`storageQueue.add(...)`), or the in-flight job's store call resolving. -/
inductive QueueEvent (α : Type) where
  | submit (job : α)
  | complete

/-- Modelled from the spec: one transition of the concurrency-1 queue. A
submitted job starts immediately when nothing is in flight and otherwise
waits in FIFO order; on completion the oldest waiting job (if any) starts. -/
def queueStep {α : Type} (s : QueueState α) : QueueEvent α → QueueState α
  | QueueEvent.submit j =>
    match s.inFlight with
    | none => ⟨s.waiting, some j, s.executed ++ [j]⟩
    | some f => ⟨s.waiting ++ [j], some f, s.executed⟩
  | QueueEvent.complete =>
    match s.inFlight with
    | none => s
    | some _ =>
      match s.waiting with
      | [] => ⟨[], none, s.executed⟩
      | j :: rest => ⟨rest, some j, s.executed ++ [j]⟩

/-- The queue as created by the plugin: empty, idle. -/
def initQueue {α : Type} : QueueState α := ⟨[], none, []⟩

/-- Run the queue from its initial state over a sequence of events. -/
def runQueue {α : Type} (events : List (QueueEvent α)) : QueueState α :=
  events.foldl queueStep initQueue

/-- The write jobs submitted in an event sequence, in submission order. -/
def submittedJobs {α : Type} (events : List (QueueEvent α)) : List α :=
  events.filterMap fun e =>
    match e with
    | QueueEvent.submit j => some j
    | QueueEvent.complete => none

/-- The queue invariant tying a state to the submissions so far. -/
def QueueInv {α : Type} (s : QueueState α) (subs : List α) : Prop :=
  s.executed ++ s.waiting = subs ∧ (s.inFlight = none → s.waiting = [])

theorem submittedJobs_cons {α : Type} (e : QueueEvent α) (es : List (QueueEvent α)) :
    submittedJobs (e :: es) = submittedJobs [e] ++ submittedJobs es := by
  cases e <;> simp [submittedJobs]

theorem queueStep_inv {α : Type} (s : QueueState α) (e : QueueEvent α)
    (subs : List α) (h : QueueInv s subs) :
    QueueInv (queueStep s e) (subs ++ submittedJobs [e]) := by
  obtain ⟨h1, h2⟩ := h
  cases e with
  | submit j =>
    cases hf : s.inFlight with
    | none =>
      have hw := h2 hf
      refine ⟨?_, fun hcon => by simp [queueStep, hf] at hcon⟩
      simp only [queueStep, hf]
      rw [hw, List.append_nil] at h1
      simp [submittedJobs, h1, hw]
    | some f =>
      refine ⟨?_, fun hcon => by simp [queueStep, hf] at hcon⟩
      simp only [queueStep, hf]
      simp [submittedJobs, ← h1]
  | complete =>
    cases hf : s.inFlight with
    | none =>
      refine ⟨?_, fun _ => ?_⟩
      · simp [queueStep, hf, h1, submittedJobs]
      · simp only [queueStep, hf]
        exact h2 hf
    | some f =>
      cases hw : s.waiting with
      | nil =>
        refine ⟨?_, fun _ => ?_⟩
        · simp only [queueStep, hf, hw]
          rw [hw, List.append_nil] at h1
          simp [submittedJobs, h1]
        · simp [queueStep, hf, hw]
      | cons j rest =>
        refine ⟨?_, fun hcon => by simp [queueStep, hf, hw] at hcon⟩
        simp only [queueStep, hf, hw]
        rw [hw] at h1
        simp only [submittedJobs, List.filterMap_cons, List.filterMap_nil,
          List.append_nil]
        rw [List.append_assoc, List.singleton_append]
        exact h1

theorem runQueue_inv {α : Type} (events : List (QueueEvent α)) :
    ∀ (s : QueueState α) (subs : List α), QueueInv s subs →
      QueueInv (events.foldl queueStep s) (subs ++ submittedJobs events) := by
  induction events with
  | nil =>
    intro s subs h
    simpa [submittedJobs] using h
  | cons e es ih =>
    intro s subs h
    rw [List.foldl_cons, submittedJobs_cons, ← List.append_assoc]
    exact ih (queueStep s e) (subs ++ submittedJobs [e]) (queueStep_inv s e subs h)

/-- C2: in the single-worker queue model, for any interleaving of job
submissions and completions (any completion latency), the jobs started (in
start order) always form a prefix of the jobs submitted (in submission
order), started-plus-waiting is exactly the submission sequence, the queue
is idle only with an empty FIFO, and at most one job is in flight at any
time. Both execution modes submit through this same queue — the mode only
decides whether the host awaits the job's promise. -/
theorem C2_ordered_queue {α : Type} (events : List (QueueEvent α)) :
    (runQueue events).executed <+: submittedJobs events
    ∧ (runQueue events).executed ++ (runQueue events).waiting = submittedJobs events
    ∧ ((runQueue events).inFlight = none → (runQueue events).waiting = [])
    ∧ (runQueue events).inFlight.toList.length ≤ 1 := by
  have h := runQueue_inv events initQueue []
    ⟨by simp [initQueue], fun _ => rfl⟩
  rw [List.nil_append] at h
  obtain ⟨h1, h2⟩ := h
  refine ⟨⟨(runQueue events).waiting, h1⟩, h1, h2, ?_⟩
  cases (runQueue events).inFlight <;> simp

/-- Closed instance of C2: two jobs submitted back-to-back with the first
still in flight — only the first has started, the second waits. -/
theorem C2_ordered_queue_witness :
    (runQueue [QueueEvent.submit 1, QueueEvent.submit 2]).executed
        <+: submittedJobs [QueueEvent.submit 1, QueueEvent.submit 2]
    ∧ (runQueue [QueueEvent.submit 1, QueueEvent.submit 2]).executed
        ++ (runQueue [QueueEvent.submit 1, QueueEvent.submit 2]).waiting
        = submittedJobs [QueueEvent.submit 1, QueueEvent.submit 2]
    ∧ ((runQueue [QueueEvent.submit 1, QueueEvent.submit 2]).inFlight = none →
        (runQueue [QueueEvent.submit 1, QueueEvent.submit 2]).waiting = [])
    ∧ (runQueue [QueueEvent.submit 1, QueueEvent.submit 2]).inFlight.toList.length
        ≤ 1 :=
  C2_ordered_queue [QueueEvent.submit (1 : Nat), QueueEvent.submit 2]

/-- Sequential execution of the routed store calls inside the queued task's
`try` block, stopping at the first failure: the calls attempted in order,
and the error if one of them failed. -/
def execCalls (store : StoreCall → Except String Unit) :
    List StoreCall → List StoreCall × Option String
  | [] => ([], none)
  | c :: rest =>
    match store c with
    | Except.ok _ =>
      ((execCalls store rest).1.cons c, (execCalls store rest).2)
    | Except.error e => ([c], some e)

/-- The function handed to `storageQueue.add` (part_004 lines 330-380),
`try/catch` included: the task's promise outcome, the store calls
attempted, and the console error log. The `catch` logs any store failure
and returns normally, so the task's promise always resolves. -/
def storageTask (store : StoreCall → Except String Unit)
    (threadId userId messageRole : String) (textContent : List Char) :
    Except String Unit × List StoreCall × List String :=
  match (execCalls store (routeMessage threadId userId messageRole textContent)).2 with
  | none =>
      (Except.ok (),
       (execCalls store (routeMessage threadId userId messageRole textContent)).1, [])
  | some e =>
      (Except.ok (),
       (execCalls store (routeMessage threadId userId messageRole textContent)).1,
       ["[Withvibes] Error storing message: " ++ e])

/-- What the host observes from one `chat.message` hook invocation. -/
structure HookResult where
  hostOutcome : Except String Unit
  storeAttempts : List StoreCall
  loggedErrors : List String

/-- The `chat.message` hook as awaited by the host (part_004 lines
382-405): in blocking mode (`asyncStorage = false`) the hook awaits the
task's promise, so the hook's outcome is the task's outcome; in async mode
it attaches `.catch` and returns at once, so the host's await always
resolves. -/
def chatMessageHook (asyncStorage : Bool) (store : StoreCall → Except String Unit)
    (threadId userId messageRole : String) (textContent : List Char) : HookResult :=
  match storageTask store threadId userId messageRole textContent with
  | (outcome, att, logs) =>
    if asyncStorage then ⟨Except.ok (), att, logs⟩ else ⟨outcome, att, logs⟩

/-- C6 as stated is false on the code: in blocking mode with a store that
fails, the host's await of the ingestion call still resolves — the
`try/catch` inside the queued task swallows the failure and logs it, so no
rejection ever reaches the host. -/
theorem C6_counterexample :
    (chatMessageHook false (fun _ => Except.error "API Error 500") "t" "u" "user"
        "hello".toList).hostOutcome = Except.ok ()
    ∧ (chatMessageHook false (fun _ => Except.error "API Error 500") "t" "u" "user"
        "hello".toList).loggedErrors ≠ [] := by
  refine ⟨rfl, ?_⟩
  have h : (chatMessageHook false (fun _ => Except.error "API Error 500") "t" "u"
      "user" "hello".toList).loggedErrors
      = ["[Withvibes] Error storing message: API Error 500"] := rfl
  rw [h]
  exact List.cons_ne_nil _ _

/-- C6 (amended: in *both* execution modes a store failure is caught inside
the queued task and logged, never thrown into the host's control flow — in
blocking mode too the awaited ingestion call resolves normally rather than
surfacing a rejected await): the hook's outcome is always a resolved
promise, and the error log is empty exactly when no store call failed. -/
theorem C6_store_failures_swallowed (asyncStorage : Bool)
    (store : StoreCall → Except String Unit)
    (tid uid role : String) (text : List Char) :
    (chatMessageHook asyncStorage store tid uid role text).hostOutcome
        = Except.ok ()
    ∧ ((chatMessageHook asyncStorage store tid uid role text).loggedErrors = []
        ↔ (execCalls store (routeMessage tid uid role text)).2 = none) := by
  cases asyncStorage <;>
    rcases hec : (execCalls store (routeMessage tid uid role text)).2 with _ | e <;>
    simp [chatMessageHook, storageTask, hec]

/-- Closed instance of C6: async mode with a failing store resolves and
logs the failure. -/
theorem C6_store_failures_swallowed_witness :
    (chatMessageHook true (fun _ => Except.error "boom") "t" "u" "user"
        "hi".toList).hostOutcome = Except.ok ()
    ∧ ((chatMessageHook true (fun _ => Except.error "boom") "t" "u" "user"
        "hi".toList).loggedErrors = []
        ↔ (execCalls (fun _ => Except.error "boom")
            (routeMessage "t" "u" "user" "hi".toList)).2 = none) :=
  C6_store_failures_swallowed true (fun _ => Except.error "boom") "t" "u" "user"
    "hi".toList

/-- A loaded skill bundle as held in the `skills` array (part_004 lines
182-198): name and description from the validated frontmatter, the trimmed
body, and the base path (`dirname` of the SKILL.md path). -/
structure Skill where
  name : String
  description : String
  content : List Char
  basePath : String
deriving DecidableEq

/-- Tool-name mangling of the registration loop (part_004 line 287):
`skills_` prefix, every '-' replaced by '_'. -/
def toolName (name : String) : String :=
  "skills_" ++ String.mk (name.toList.map fun c => if c = '-' then '_' else c)

/-- JS object property assignment `tools[toolName] = v` on a string-keyed
record: replace the binding in place if the key exists, else append it. -/
def upsert (m : List (String × Skill)) (k : String) (v : Skill) :
    List (String × Skill) :=
  match m with
  | [] => [(k, v)]
  | (k1, v1) :: rest => if k1 = k then (k, v) :: rest else (k1, v1) :: upsert rest k v

/-- Property lookup on the `tools` record. -/
def findTool (m : List (String × Skill)) (k : String) : Option Skill :=
  match m with
  | [] => none
  | (k1, v) :: rest => if k1 = k then some v else findTool rest k

/-- The skill registration loop (part_004 lines 285-324): every discovered
skill is assigned into the `tools` record under its mangled tool name, with
no duplicate check of any kind. -/
def registerSkills (skills : List Skill) (tools : List (String × Skill)) :
    List (String × Skill) :=
  skills.foldl (fun m s => upsert m (toolName s.name) s) tools

/-- The last discovered skill whose mangled name is `k`, if any. -/
def lastDup (skills : List Skill) (k : String) : Option Skill :=
  skills.reverse.find? fun s => toolName s.name = k

theorem findTool_upsert (m : List (String × Skill)) (k k1 : String) (v : Skill) :
    findTool (upsert m k v) k1 = if k = k1 then some v else findTool m k1 := by
  induction m with
  | nil => simp [upsert, findTool]
  | cons p rest ih =>
    obtain ⟨k2, v2⟩ := p
    by_cases h2 : k2 = k
    · subst h2
      by_cases h1 : k2 = k1 <;> simp [upsert, findTool, h1]
    · by_cases h1 : k2 = k1
      · subst h1
        simp [upsert, findTool, h2, Ne.symm h2]
      · simp [upsert, findTool, h2, h1, ih]

theorem registerSkills_findTool (skills : List Skill) :
    ∀ (tools : List (String × Skill)) (k : String),
      findTool (registerSkills skills tools) k
        = Option.orElse (lastDup skills k) (fun _ => findTool tools k) := by
  induction skills with
  | nil =>
    intro tools k
    simp [registerSkills, lastDup, Option.orElse]
  | cons s rest ih =>
    intro tools k
    have hstep : registerSkills (s :: rest) tools
        = registerSkills rest (upsert tools (toolName s.name) s) := rfl
    rw [hstep, ih]
    have hlast : lastDup (s :: rest) k
        = Option.orElse (lastDup rest k)
            (fun _ => if toolName s.name = k then some s else none) := by
      simp only [lastDup, List.reverse_cons, List.find?_append]
      cases (List.reverse rest).find? fun x => toolName x.name = k <;>
        by_cases hk : toolName s.name = k <;>
          simp [List.find?, Option.orElse, hk]
    rw [hlast, findTool_upsert]
    cases lastDup rest k <;> by_cases hk : toolName s.name = k <;>
      simp [Option.orElse, hk]

/-- C7 as stated is false on the code: two discovered manifests share the
identifier "zep-memory", and the registry ends up holding the *second* one
— the later duplicate silently replaced the first, rather than being
skipped. -/
theorem C7_counterexample :
    findTool
      (registerSkills
        [⟨"zep-memory", "first duplicate description text", "c1".toList, "/p1"⟩,
         ⟨"zep-memory", "second duplicate description text", "c2".toList, "/p2"⟩]
        [])
      "skills_zep_memory"
      = some ⟨"zep-memory", "second duplicate description text", "c2".toList, "/p2"⟩
    ∧ (⟨"zep-memory", "second duplicate description text", "c2".toList, "/p2"⟩ : Skill)
      ≠ ⟨"zep-memory", "first duplicate description text", "c1".toList, "/p1"⟩ := by
  constructor
  · decide
  · decide

/-- C7 (amended: the registration loop has no duplicate handling at all —
when several discovered manifests share an identifier, the *last* discovered
one is registered, each later duplicate silently replacing the earlier
capability, with no skip and no warning): the capability registered under
any tool name is exactly the last discovered skill bearing that name. -/
theorem C7_last_duplicate_wins (skills : List Skill) (k : String) :
    findTool (registerSkills skills []) k = lastDup skills k := by
  rw [registerSkills_findTool]
  cases lastDup skills k <;> rfl

/-- A SKILL.md file as gray-matter parses it: which of the schema's required
frontmatter keys are present, with their values, plus the body. A missing
key models a frontmatter without it (zod then rejects the manifest). -/
structure RawSkillFile where
  name : Option String
  description : Option String
  content : List Char

/-- Embedding of `loadBundledSkill` (part_004 lines 39-53): a `none` file
models one that could not be read or parsed (the `catch` path);
`SkillFrontmatterSchema` requires string `name` and `description` with the
description at least 20 characters (`z.string().min(20)`); on success the
body is trimmed. Anything failing yields `none`, which the caller logs and
skips. -/
def loadBundledSkill (file : Option RawSkillFile) :
    Option (String × String × List Char) :=
  match file with
  | none => none
  | some f =>
    match f.name, f.description with
    | some n, some d =>
      if 20 ≤ d.length then some (n, d, trimList f.content) else none
    | _, _ => none

/-- One iteration of the skill discovery loop (part_004 lines 189-198):
append the loaded skill (`basePath = dirname(path)`, with `dirname` from
Node's path module passed in as `dirnameFn`), or append a console warning
and skip. -/
def discoverStep (dirnameFn : String → String) (acc : List Skill × List String)
    (file : String × Option RawSkillFile) : List Skill × List String :=
  match loadBundledSkill file.2 with
  | some s => (acc.1 ++ [⟨s.1, s.2.1, s.2.2, dirnameFn file.1⟩], acc.2)
  | none => (acc.1, acc.2 ++ ["[Withvibes] Failed to load skill from " ++ file.1])

/-- The skill discovery loop over all discovered SKILL.md paths: the loaded
skills in discovery order, and the warnings logged for rejected files. -/
def discoverSkills (dirnameFn : String → String)
    (files : List (String × Option RawSkillFile)) : List Skill × List String :=
  files.foldl (discoverStep dirnameFn) ([], [])

theorem discoverSkills_go (dn : String → String) :
    ∀ (files : List (String × Option RawSkillFile)) (acc : List Skill × List String),
      files.foldl (discoverStep dn) acc
        = (acc.1 ++ files.filterMap (fun f => (loadBundledSkill f.2).map
              fun s => (⟨s.1, s.2.1, s.2.2, dn f.1⟩ : Skill)),
           acc.2 ++ (files.filter fun f => (loadBundledSkill f.2).isNone).map
              fun f => "[Withvibes] Failed to load skill from " ++ f.1) := by
  intro files
  induction files with
  | nil => intro acc; simp
  | cons f fs ih =>
    intro acc
    rw [List.foldl_cons, ih]
    cases hl : loadBundledSkill f.2 with
    | some s =>
      simp [discoverStep, hl, List.filterMap_cons, List.filter_cons]
    | none =>
      simp [discoverStep, hl, List.filterMap_cons, List.filter_cons]

/-- C8: a manifest failing schema validation is skipped with a logged
warning and never prevents the remaining bundles from loading — the
registered skills are exactly the valid files, in order, and the warnings
are exactly one per rejected file; in particular a directory holding one
manifest whose description is shorter than 20 characters and one valid
manifest yields exactly one registered capability (the valid one) and one
logged warning (for the rejected one). -/
theorem C8_validation_skip (dn : String → String)
    (files : List (String × Option RawSkillFile)) :
    (discoverSkills dn files).1
        = files.filterMap (fun f => (loadBundledSkill f.2).map
            fun s => (⟨s.1, s.2.1, s.2.2, dn f.1⟩ : Skill))
    ∧ (discoverSkills dn files).2
        = ((files.filter fun f => (loadBundledSkill f.2).isNone).map
            fun f => "[Withvibes] Failed to load skill from " ++ f.1)
    ∧ (discoverSkills dn
          [("/skills/bad/SKILL.md",
            some ⟨some "bad", some "too short", "x".toList⟩),
           ("/skills/good/SKILL.md",
            some ⟨some "good", some "a sufficiently long description",
              "y".toList⟩)]).1
        = [⟨"good", "a sufficiently long description", trimList "y".toList,
            dn "/skills/good/SKILL.md"⟩]
    ∧ (discoverSkills dn
          [("/skills/bad/SKILL.md",
            some ⟨some "bad", some "too short", "x".toList⟩),
           ("/skills/good/SKILL.md",
            some ⟨some "good", some "a sufficiently long description",
              "y".toList⟩)]).2
        = ["[Withvibes] Failed to load skill from /skills/bad/SKILL.md"] := by
  have hgo := discoverSkills_go dn
  refine ⟨?_, ?_, ?_, ?_⟩
  · rw [discoverSkills, hgo files ([], [])]
    simp
  · rw [discoverSkills, hgo files ([], [])]
    simp
  · rw [discoverSkills, hgo _ ([], [])]
    have hbad : loadBundledSkill (some ⟨some "bad", some "too short", ['x']⟩)
        = none := by decide
    have hgood : loadBundledSkill
        (some ⟨some "good", some "a sufficiently long description", ['y']⟩)
        = some ("good", "a sufficiently long description", trimList ['y']) := by
      decide
    simp [List.filterMap_cons, hbad, hgood]
  · rw [discoverSkills, hgo _ ([], [])]
    have hbad : loadBundledSkill (some ⟨some "bad", some "too short", ['x']⟩)
        = none := by decide
    have hgood : loadBundledSkill
        (some ⟨some "good", some "a sufficiently long description", ['y']⟩)
        = some ("good", "a sufficiently long description", trimList ['y']) := by
      decide
    simp [List.filter_cons, hbad, hgood]

/-- The header message of a skill invocation (part_004 lines 305-307). -/
def headerMsg (skill : Skill) : String :=
  "The \"" ++ skill.name ++ "\" skill is loading\n" ++ skill.name

/-- The body message of a skill invocation (part_004 lines 310-312): the
base path followed by the skill's full content. -/
def bodyMsg (skill : Skill) : String :=
  "Base directory for this skill: " ++ skill.basePath ++ "\n\n"
    ++ String.mk skill.content

/-- The failure string of the skill tool's `catch` branch:
`Error loading skill: ${error.message || 'Unknown error'}`. -/
def skillErrorString (e : String) : String :=
  "Error loading skill: " ++ (if e = "" then "Unknown error" else e)

/-- Embedding of the skill tool's `execute` (part_004 lines 292-320):
`inject` models `client.session.prompt` with `noReply: true` (the injected
message is marked already-answered but persists in the conversation's
durable history). Returns the tool's result string together with the texts
successfully injected, in order; a failure is caught and turned into the
failure string rather than propagated. -/
def skillExecute (skill : Skill) (inject : String → Except String Unit) :
    String × List String :=
  match inject (headerMsg skill) with
  | Except.error e => (skillErrorString e, [])
  | Except.ok _ =>
    match inject (bodyMsg skill) with
    | Except.error e => (skillErrorString e, [headerMsg skill])
    | Except.ok _ =>
      ("Launching skill: " ++ skill.name, [headerMsg skill, bodyMsg skill])

/-- C9: invoking a capability bundle injects exactly two ordered messages —
first a header naming the bundle, then a body carrying the bundle's base
path followed by its full content — and returns a confirmation string
naming the bundle; and if either injection fails, the invocation returns
the explicit "Error loading skill" failure string instead of propagating
the failure. -/
theorem C9_skill_delivery (skill : Skill) (inject : String → Except String Unit) :
    (inject (headerMsg skill) = Except.ok () →
      inject (bodyMsg skill) = Except.ok () →
      skillExecute skill inject
        = ("Launching skill: " ++ skill.name, [headerMsg skill, bodyMsg skill]))
    ∧ (∀ e, inject (headerMsg skill) = Except.error e →
        skillExecute skill inject = (skillErrorString e, []))
    ∧ (∀ e, inject (headerMsg skill) = Except.ok () →
        inject (bodyMsg skill) = Except.error e →
        skillExecute skill inject = (skillErrorString e, [headerMsg skill])) := by
  refine ⟨?_, ?_, ?_⟩
  · intro h1 h2
    unfold skillExecute
    rw [h1, h2]
  · intro e h1
    unfold skillExecute
    rw [h1]
  · intro e h1 h2
    unfold skillExecute
    rw [h1, h2]

/-- Closed instance of C9: with injection succeeding, the invocation sends
the header then the body and returns the confirmation. -/
theorem C9_skill_delivery_witness :
    skillExecute ⟨"zep-memory", "memory skill description here", "c".toList, "/base"⟩
        (fun _ => Except.ok ())
      = ("Launching skill: "
          ++ (⟨"zep-memory", "memory skill description here", "c".toList,
              "/base"⟩ : Skill).name,
         [headerMsg ⟨"zep-memory", "memory skill description here", "c".toList,
            "/base"⟩,
          bodyMsg ⟨"zep-memory", "memory skill description here", "c".toList,
            "/base"⟩]) :=
  (C9_skill_delivery
    ⟨"zep-memory", "memory skill description here", "c".toList, "/base"⟩
    (fun _ => Except.ok ())).1 rfl rfl

end Withvibes
